import Mathlib

/-!
Shallow embedding of the rule-matching / extraction / formula-evaluation core
of the gmail-to-fortnox repository, together with theorems settling the
frozen claims about it.

Python strings are modelled as `List Char`; Python `Decimal` values as `ℚ`
(Python's `decimal` module is arbitrary-precision, so every value occurring
is an exact rational); Python dicts keyed by strings as association lists.
Character classes (`\d`, `\s`, `\w`) are modelled by their ASCII meaning.
-/

abbrev Str := List Char

def s2l (s : String) : Str := s.data

/-- Python `str.isspace` relevant characters, i.e. the characters matched by
`\s` (ASCII fragment): space, tab, newline, carriage return, vertical tab,
form feed. -/
def pyIsSpace (c : Char) : Bool :=
  c = ' ' || c = '\t' || c = '\n' || c = '\r' || c = Char.ofNat 11 || c = Char.ofNat 12

/-- Python `str.strip()`: remove leading and trailing whitespace. -/
def pyStrip (s : Str) : Str :=
  ((s.dropWhile pyIsSpace).reverse.dropWhile pyIsSpace).reverse

/-- Python `str.lower()` (ASCII fragment). -/
def pyLower (s : Str) : Str := s.map Char.toLower

/-- A word character in the sense of the regex class `\w` (ASCII fragment):
letters, digits, underscore.  Used for `\b` word boundaries. -/
def isWordChar (c : Char) : Bool := c.isAlphanum || c = '_'

/-- Python `Decimal.quantize(Decimal('0.01'))` under `ROUND_HALF_UP` (ties away
from zero), as configured in the constructors of `FormulaEvaluator` and
`DataExtractor`: round to exactly 2 fractional digits. -/
def round2 (q : ℚ) : ℚ :=
  if q < 0 then -((⌊-q * 100 + 1 / 2⌋ : ℚ) / 100) else (⌊q * 100 + 1 / 2⌋ : ℚ) / 100

def natToChars (n : ℕ) : Str := Nat.toDigits 10 n

def intToChars (i : ℤ) : Str :=
  if i < 0 then '-' :: natToChars i.natAbs else natToChars i.natAbs

/-- Rendering of a variable value interpolated into a formula by
`str(variables[var_name])`.  The source interpolates the decimal digit
string of the value; we render the same exact value as a parenthesized
fraction of integer literals, which denotes the identical rational under
the expression grammar and uses only whitelisted characters, exactly as
the source's digit rendering does. -/
def ratToStr (q : ℚ) : Str :=
  '(' :: intToChars q.num ++ '/' :: natToChars q.den ++ [')']

/-! ## FormulaEvaluator (src/app/utils/formula_evaluator.py) -/

/-- Worker for `percentRewrite`: `run` holds the digit run read so far,
reversed.  Implements `re.sub(r'(\d+)%', r'(\1/100)', expr)`: a maximal
digit run immediately followed by `%` becomes `(run/100)`. -/
def pctAux (run : Str) : Str → Str
  | [] => run.reverse
  | c :: rest =>
    if c.isDigit then pctAux (c :: run) rest
    else if c = '%' && !run.isEmpty then
      ('(' :: run.reverse ++ ('/' :: '1' :: '0' :: '0' :: [')'])) ++ pctAux [] rest
    else run.reverse ++ c :: pctAux [] rest

/-- Step 'Handle percentage calculations': `expr = re.sub(r'(\d+)%', r'(\1/100)', expr)`. -/
def percentRewrite (s : Str) : Str := pctAux [] s

/-- Boundary test for `\b` at the start of a candidate match: `prev` is the
character preceding the match position (none at string start), `first` the
first character of the match. -/
def boundaryL (prev : Option Char) (first : Char) : Bool :=
  match prev with
  | none => isWordChar first
  | some p => isWordChar p != isWordChar first

/-- Boundary test for `\b` at the end of a candidate match: `last` is the
final character of the matched text, `next` the character following it
(none at string end). -/
def boundaryR (last : Char) (next : Option Char) : Bool :=
  match next with
  | none => isWordChar last
  | some n => isWordChar last != isWordChar n

/-- Worker for `wbReplace`, structurally recursive on a fuel argument that
starts at the length of the scanned text (each step consumes at least one
character and one unit of fuel, so the fuel never runs dry). -/
def wbAux (name val : Str) : ℕ → Option Char → Str → Str
  | 0, _, e => e
  | _ + 1, _, [] => []
  | fuel + 1, prev, c :: rest =>
    if !name.isEmpty && name.isPrefixOf (c :: rest)
        && boundaryL prev c && boundaryR (name.getLastD c) ((c :: rest).drop name.length).head? then
      val ++ wbAux name val fuel (some (name.getLastD c)) ((c :: rest).drop name.length)
    else c :: wbAux name val fuel (some c) rest

/-- Replacement of whole-word occurrences:
`re.sub(r'\b' + re.escape(var_name) + r'\b', str(value), expr)`.
Scans left to right; a literal occurrence of `name` flanked by `\b` word
boundaries is replaced by `val`, and scanning resumes after the occurrence
(the inserted text is not rescanned, matching `re.sub`). -/
def wbReplace (name val e : Str) : Str := wbAux name val e.length none e

/-- Stable insertion step for sorting variable names by length, longest
first (`sorted(variables.keys(), key=len, reverse=True)`). -/
def insertLenDesc (x : Str) : List Str → List Str
  | [] => [x]
  | y :: ys => if y.length ≤ x.length then x :: y :: ys else y :: insertLenDesc x ys

/-- Models `sorted(variables.keys(), key=len, reverse=True)`: Python's sort is
stable and `reverse=True` keeps the original order of equal-length keys,
which this stable descending insertion sort reproduces. -/
def sortByLenDesc : List Str → List Str
  | [] => []
  | x :: xs => insertLenDesc x (sortByLenDesc xs)

/-- The variable-substitution loop of `FormulaEvaluator.evaluate`:
for each variable name, longest first, replace its whole-word occurrences
by its value's string form. -/
def substituteVars (vars : List (Str × ℚ)) (s : Str) : Str :=
  (sortByLenDesc (vars.map Prod.fst)).foldl
    (fun e n => wbReplace n (ratToStr ((vars.lookup n).getD 0)) e) s

/-- The character class of the whitelist regex
`^[\d\s\+\-\*\/\(\)\.\,]+$`: digits, whitespace, and `+ - * / ( ) . ,`. -/
def allowedChar (c : Char) : Bool :=
  c.isDigit || pyIsSpace c || c = '+' || c = '-' || c = '*' || c = '/'
    || c = '(' || c = ')' || c = '.' || c = ','

/-- Whether `re.match(r'^[\d\s\+\-\*\/\(\)\.\,]+$', expr)` succeeds: the expression
is nonempty (the `+` quantifier) and every character is whitelisted. -/
def whitelistOk (e : Str) : Bool := !e.isEmpty && e.all allowedChar

/-- Python `expr.replace(',', '.')`. -/
def commaToPeriod (s : Str) : Str := s.map fun c => if c = ',' then '.' else c

/-- Tokens of the arithmetic expression grammar reachable through the
character whitelist.  A numeric literal keeps its integer and fractional
digit strings; its rational value is formed where the literal is used. -/
inductive Tok where
  | num (ip fp : Str)
  | plus
  | minus
  | star
  | slash
  | lpar
  | rpar
  deriving DecidableEq

def digitsToNat (s : Str) : ℕ := s.foldl (fun a c => 10 * a + (c.toNat - 48)) 0

/-- Tokenizer worker, fuelled by the length of the remaining input (each
step consumes at least one character).  A numeric literal is a digit run,
optionally followed by a period and a further digit run; a literal with no
digits at all (a lone period) is a syntax error, as in Python. -/
def tokAux : ℕ → Str → Option (List Tok)
  | 0, _ => none
  | _ + 1, [] => some []
  | fuel + 1, c :: rest =>
    if pyIsSpace c then tokAux fuel rest
    else if c = '+' then (tokAux fuel rest).map (Tok.plus :: ·)
    else if c = '-' then (tokAux fuel rest).map (Tok.minus :: ·)
    else if c = '*' then (tokAux fuel rest).map (Tok.star :: ·)
    else if c = '/' then (tokAux fuel rest).map (Tok.slash :: ·)
    else if c = '(' then (tokAux fuel rest).map (Tok.lpar :: ·)
    else if c = ')' then (tokAux fuel rest).map (Tok.rpar :: ·)
    else if c.isDigit || c = '.' then
      let ip := (c :: rest).takeWhile Char.isDigit
      let afterInt := (c :: rest).dropWhile Char.isDigit
      match afterInt with
      | '.' :: r2 =>
        let fp := r2.takeWhile Char.isDigit
        let afterFrac := r2.dropWhile Char.isDigit
        if ip.isEmpty && fp.isEmpty then none
        else (tokAux fuel afterFrac).map (Tok.num ip fp :: ·)
      | _ => (tokAux fuel afterInt).map (Tok.num ip [] :: ·)
    else none

def tokenize (s : Str) : Option (List Tok) := tokAux (s.length + 1) s

/-- Parser modes: an additive expression, the tail of an additive chain
with its left-accumulated value, a multiplicative term, the tail of a
multiplicative chain, and a factor (unary sign, literal, parentheses). -/
inductive PMode where
  | expr
  | exprChain (acc : ℚ)
  | term
  | termChain (acc : ℚ)
  | factor

/-- Recursive-descent parser / evaluator for the arithmetic expression
grammar of spec §4.3 step 5: `+ -` over `* /` over unary sign and
parentheses, left-associative, exact rational arithmetic, division by
zero fails.  Fuelled (structural recursion on the fuel). -/
def parseP : ℕ → PMode → List Tok → Option (ℚ × List Tok)
  | 0, _, _ => none
  | fuel + 1, .expr, ts =>
    (parseP fuel .term ts).bind fun vr => parseP fuel (.exprChain vr.1) vr.2
  | fuel + 1, .exprChain acc, ts =>
    match ts with
    | .plus :: r =>
      (parseP fuel .term r).bind fun vr => parseP fuel (.exprChain (acc + vr.1)) vr.2
    | .minus :: r =>
      (parseP fuel .term r).bind fun vr => parseP fuel (.exprChain (acc - vr.1)) vr.2
    | _ => some (acc, ts)
  | fuel + 1, .term, ts =>
    (parseP fuel .factor ts).bind fun vr => parseP fuel (.termChain vr.1) vr.2
  | fuel + 1, .termChain acc, ts =>
    match ts with
    | .star :: r =>
      (parseP fuel .factor r).bind fun vr => parseP fuel (.termChain (acc * vr.1)) vr.2
    | .slash :: r =>
      (parseP fuel .factor r).bind fun vr =>
        if vr.1 = 0 then none else parseP fuel (.termChain (acc / vr.1)) vr.2
    | _ => some (acc, ts)
  | fuel + 1, .factor, ts =>
    match ts with
    | .minus :: r => (parseP fuel .factor r).map fun vr => (-vr.1, vr.2)
    | .plus :: r => parseP fuel .factor r
    | .num ip fp :: r =>
      some ((digitsToNat ip : ℚ) + (digitsToNat fp : ℚ) / (10 ^ fp.length : ℚ), r)
    | .lpar :: r =>
      match parseP fuel .expr r with
      | some (v, .rpar :: r2) => some (v, r2)
      | _ => none
    | _ => none

/-- The arithmetic evaluation step of `FormulaEvaluator.evaluate`
(`result = eval(expr)` on a whitelisted expression): parse and evaluate
the expression with standard precedence and parenthesization; malformed
syntax, trailing tokens or division by zero yield `none`.  Arithmetic is
exact over ℚ, as spec §4.3/§9 mandate for monetary arithmetic; the source
instead delegates to Python `eval`, whose `/` and decimal literals use
IEEE-754 binary floating point — claim C2 records this divergence. -/
def evalArith (s : Str) : Option ℚ :=
  (tokenize s).bind fun ts =>
    match parseP (4 * ts.length + 4) .expr ts with
    | some (v, []) => some v
    | _ => none

/-- Formula inputs accepted by `FormulaEvaluator.evaluate`: a number
(Python `int` / `float` / `Decimal`) or a string. -/
inductive FormulaVal where
  | num (q : ℚ)
  | fstr (s : Str)

/-- Models `FormulaEvaluator.evaluate`, parameterized by the arithmetic evaluator
`ev` used for the final expression evaluation step (the source's `eval`):
numeric input is returned rounded; a string equal to a variable name
returns that variable rounded; otherwise variables are substituted,
percent tokens rewritten, the character whitelist enforced (returning
`none` on violation, without consulting `ev`), commas turned into periods,
and the expression handed to `ev`, the result rounded to 2 places.  Any
failure yields `none`. -/
def evaluateWith (ev : Str → Option ℚ) (f : FormulaVal) (vars : List (Str × ℚ)) : Option ℚ :=
  match f with
  | .num q => some (round2 q)
  | .fstr s =>
    match vars.lookup s with
    | some v => some (round2 v)
    | none =>
      let expr := percentRewrite (substituteVars vars s)
      if whitelistOk expr then
        match ev (commaToPeriod expr) with
        | some r => some (round2 r)
        | none => none
      else none

/-- Models `FormulaEvaluator.evaluate` with the exact arithmetic evaluator. -/
def evaluate (f : FormulaVal) (vars : List (Str × ℚ)) : Option ℚ :=
  evaluateWith evalArith f vars

/-! ## DataExtractor (src/app/utils/data_extraction.py) -/

/-- Whether a Python value bound to `value` is truthy: a non-`None`,
nonempty string. -/
def pyTruthy (v : Option Str) : Bool :=
  match v with
  | none => false
  | some s => !s.isEmpty

/-- Python `Decimal(u)` on a string `u` of digits and periods (all other
characters have been stripped by the caller): the parse succeeds exactly
when there is at least one digit and at most one period. -/
def pyDecimalOfString (u : Str) : Option ℚ :=
  if u.any Char.isDigit && u.count '.' ≤ 1 then
    let ip := u.takeWhile (· ≠ '.')
    let fp := (u.dropWhile (· ≠ '.')).drop 1
    some ((digitsToNat ip : ℚ) + (digitsToNat fp : ℚ) / (10 ^ fp.length : ℚ))
  else none

/-- Models `DataExtractor.normalize_decimal`: empty or `None` input yields `None`;
otherwise commas become periods, every character that is not a digit or a
period is removed (`re.sub(r'[^\d.]', '', ...)`), and the remainder is
parsed as a decimal, conversion failure yielding `None`. -/
def normalize_decimal (s : Str) : Option ℚ :=
  if s.isEmpty then none
  else
    pyDecimalOfString ((commaToPeriod s).filter fun c => c.isDigit || c = '.')

/-- A regex pattern with one capture group, modelled by its `re.search`
semantics: the function returns the text of capture group 1 of the first
match, or `none` when there is no match or the group did not participate. -/
abbrev Pattern := Str → Option Str

/-- Models `DataExtractor.extract_value`: `None` on empty text; otherwise search,
require a truthy (nonempty) group 1, and return it stripped of surrounding
whitespace.  (The stripped result may itself be empty.) -/
def extract_value (p : Pattern) (text : Str) : Option Str :=
  if text.isEmpty then none
  else
    match p text with
    | none => none
    | some g => if g.isEmpty then none else some (pyStrip g)

/-- One entry of the `data_extraction` configuration: an optional
HTML-specific pattern, an optional plain-text pattern, and an optional
default value (the source coerces `int` / `float` / `str` defaults through
`Decimal(str(default))`; we model the resulting rational). -/
structure ExtractionSpec where
  htmlPattern : Option Pattern
  pattern : Option Pattern
  default : Option ℚ

/-- The first step of the per-variable fallback chain in
`DataExtractor.extract_data`: `value = None`, then if the rule has an
`html_pattern` and `body_html` is truthy, `value = extract_value(html_pattern, body_html)`. -/
def htmlStep (spec : ExtractionSpec) (bodyHtml : Str) : Option Str :=
  match spec.htmlPattern with
  | some hp => if !bodyHtml.isEmpty then extract_value hp bodyHtml else none
  | none => none

/-- The full per-variable fallback chain of `DataExtractor.extract_data`:
HTML pattern on the raw HTML body, then (`if not value`) the plain pattern
on `body_text`, then (`if not value`) the plain pattern on the
tag-stripped HTML (`stripped_html`, computed by `strip_html` — here an
abstract parameter, since the source delegates to BeautifulSoup). -/
def captureValue (stripHtml : Str → Str) (spec : ExtractionSpec)
    (bodyText bodyHtml : Str) : Option Str :=
  let strippedHtml := if !bodyHtml.isEmpty then stripHtml bodyHtml else []
  let v0 := htmlStep spec bodyHtml
  let v1 :=
    match spec.pattern with
    | some p => if !pyTruthy v0 && !bodyText.isEmpty then extract_value p bodyText else v0
    | none => v0
  match spec.pattern with
  | some p => if !pyTruthy v1 && !strippedHtml.isEmpty then extract_value p strippedHtml else v1
  | none => v1

/-- Whether `not decimal_value` holds in Python for an optional `Decimal`:
true for `None` and for a zero decimal (`Decimal` is falsy at 0). -/
def decFalsy (d : Option ℚ) : Bool :=
  match d with
  | none => true
  | some q => q = 0

/-- The per-variable tail of `DataExtractor.extract_data`: normalize the
captured text when truthy; `if not decimal_value and 'default' in rule`,
take the default; round to 2 places and store, or store nothing. -/
def extractOne (stripHtml : Str → Str) (spec : ExtractionSpec)
    (bodyText bodyHtml : Str) : Option ℚ :=
  let v := captureValue stripHtml spec bodyText bodyHtml
  let dec0 := if pyTruthy v then normalize_decimal (v.getD []) else none
  let dec1 :=
    match spec.default with
    | some d => if decFalsy dec0 then some d else dec0
    | none => dec0
  dec1.map round2

/-- Models `DataExtractor.extract_data`: run every extraction rule, in order,
against the email content, collecting the variables that produced a
value. -/
def extract_data (stripHtml : Str → Str) (bodyText bodyHtml : Str)
    (rules : List (Str × ExtractionSpec)) : List (Str × ℚ) :=
  rules.filterMap fun nr => (extractOne stripHtml nr.2 bodyText bodyHtml).map fun q => (nr.1, q)

/-! ## GmailService rule matching (src/app/gmail/gmail_service.py) -/

/-- The relevant fields of the email-content dict produced by
`get_email_content`. -/
structure GEmail where
  id : Str
  date : ℕ
  sender : Str
  subject : Str
  bodyText : Str
  bodyHtml : Str
  deriving DecidableEq

/-- The matching criteria of a configured rule.  `bodyContains` holds the
list form of the criterion (the source promotes a single string to a
one-element list before the term loop). -/
structure GRule where
  sender : Option Str
  subject : Option Str
  bodyContains : Option (List Str)
  deriving DecidableEq

/-- The term loop shared by `find_matching_emails` and
`_email_matches_rule`: every required term must satisfy
`(body_text and term in body_text) or (body_html and term in body_html)` —
substring containment in a truthy (nonempty) field. -/
def bodyTermsOk (bodyText bodyHtml : Str) (terms : List Str) : Bool :=
  terms.all fun t =>
    (!bodyText.isEmpty && decide (t <:+: bodyText))
      || (!bodyHtml.isEmpty && decide (t <:+: bodyHtml))

/-- The sender / subject check of `_email_matches_rule`: if the rule sets
a truthy criterion, the email field must be truthy and contain it as a
substring. -/
def fieldOk (crit : Option Str) (field : Str) : Bool :=
  match crit with
  | none => true
  | some s => if s.isEmpty then true else !field.isEmpty && decide (s <:+: field)

/-- The body check of `_email_matches_rule`: skipped when
`rule.get('body_contains')` is falsy (absent or an empty list), otherwise
the term loop. -/
def bodyOk (bc : Option (List Str)) (bodyText bodyHtml : Str) : Bool :=
  match bc with
  | none => true
  | some ts => if ts.isEmpty then true else bodyTermsOk bodyText bodyHtml ts

/-- Models `GmailService._email_matches_rule`: sender check, subject check, body
check, all conjoined (the source returns `False` at the first failing
check). -/
def email_matches_rule (e : GEmail) (r : GRule) : Bool :=
  fieldOk r.sender e.sender && fieldOk r.subject e.subject
    && bodyOk r.bodyContains e.bodyText e.bodyHtml

/-- One element of the list built by `find_matching_emails`:
`{'email': email_content, 'rule': rule}`. -/
structure MatchedEmail where
  email : GEmail
  rule : GRule
  deriving DecidableEq

/-- The in-memory filter applied per candidate message inside
`find_matching_emails` (sender was already narrowed by the server-side
query and is not re-checked there): the subject check and the body-terms
check. -/
def inlineMatches (r : GRule) (e : GEmail) : Bool :=
  fieldOk r.subject e.subject && bodyOk r.bodyContains e.bodyText e.bodyHtml

/-- Stable insertion step for the final
`matching_emails.sort(key=lambda x: x['email'].get('date', ...), reverse=True)`. -/
def insertDateDesc (x : MatchedEmail) : List MatchedEmail → List MatchedEmail
  | [] => [x]
  | y :: ys =>
    if y.email.date ≤ x.email.date then x :: y :: ys else y :: insertDateDesc x ys

/-- Sorting by message date, newest first.  Python's `list.sort` is stable
and a stable sort's output is determined by the key order, so this stable
descending insertion sort computes the same list. -/
def sortByDateDesc : List MatchedEmail → List MatchedEmail
  | [] => []
  | x :: xs => insertDateDesc x (sortByDateDesc xs)

/-- Models `GmailService.find_matching_emails`, with the Gmail search collaborator
abstracted as a function from a rule to the messages its server-side query
returns (already fetched through `get_email` / `get_email_content`): per
rule, each candidate not already processed or ignored and passing the
in-memory checks is appended with its rule; the accumulated list is then
sorted by date, newest first. -/
def find_matching_emails (rules : List GRule) (search : GRule → List GEmail)
    (processed ignored : List Str) : List MatchedEmail :=
  sortByDateDesc
    ((rules.map fun r =>
      ((search r).filter fun e =>
        !processed.contains e.id && !ignored.contains e.id && inlineMatches r e).map
        fun e => MatchedEmail.mk e r)).flatten

/-! ## process_emails body check (src/app/main.py) -/

/-- The `body_contains` check of `process_emails` in `main.py`:
`body_match` starts `True`; when the (list-promoted) criterion is truthy it
becomes `False` and the loop sets it back to `True` at the first pattern
with `pattern.lower() in email_body.lower()`. -/
def process_emails_body_match (bodyContains : List Str) (emailBody : Str) : Bool :=
  if bodyContains.isEmpty then true
  else bodyContains.any fun p => decide (pyLower p <:+: pyLower emailBody)

/-! ## Voucher entries (formula_evaluator.py / interactive_tester.py) -/

/-- One configured accounting entry template: `{account, debit, credit}`
with debit/credit a number, a formula string, or absent. -/
structure EntryTemplate where
  account : Str
  debit : Option FormulaVal
  credit : Option FormulaVal

/-- One calculated entry: account with resolved debit and credit decimals. -/
structure ResolvedEntry where
  account : Str
  debit : ℚ
  credit : ℚ
  deriving DecidableEq

/-- Resolution of one amount field in `calculate_voucher_entries`:
`self.evaluate(value, variables) or Decimal('0')` when the field is
present, `Decimal('0')` otherwise.  (Python's `or` also replaces an
evaluated zero by `Decimal('0')`, the same rational value.) -/
def resolveAmount (v : Option FormulaVal) (vars : List (Str × ℚ)) : ℚ :=
  match v with
  | none => 0
  | some fv => (evaluate fv vars).getD 0

/-- Models `FormulaEvaluator.calculate_voucher_entries`. -/
def calculate_voucher_entries (entries : List EntryTemplate)
    (vars : List (Str × ℚ)) : List ResolvedEntry :=
  entries.map fun e =>
    ResolvedEntry.mk e.account (resolveAmount e.debit vars) (resolveAmount e.credit vars)

/-- The result record built by `InteractiveTester.preview_voucher` (the
fields the claims are about). -/
structure VoucherPreview where
  entries : List ResolvedEntry
  totalDebit : ℚ
  totalCredit : ℚ
  balanced : Bool
  deriving DecidableEq

/-- Models `InteractiveTester.preview_voucher`: calculate the entries, sum the
debit and credit columns, and report `balanced = (total_debit == total_credit)`
— exact decimal equality. -/
def preview_voucher (entries : List EntryTemplate)
    (vars : List (Str × ℚ)) : VoucherPreview :=
  let ce := calculate_voucher_entries entries vars
  { entries := ce
    totalDebit := (ce.map ResolvedEntry.debit).sum
    totalCredit := (ce.map ResolvedEntry.credit).sum
    balanced := decide ((ce.map ResolvedEntry.debit).sum = (ce.map ResolvedEntry.credit).sum) }

/-! ## Concrete fixtures used by the claim theorems -/

/-- The injection attempt from the spec's test battery,
`__import__('os')`, as a character list. -/
def injStr : Str := s2l "__import__(" ++ '\'' :: s2l "os" ++ '\'' :: [')']

/-- The input exhibiting binary floating-point drift in the source: Python
`eval("10000000000000000 + 0.05")` computes with IEEE-754 doubles, where
`1e16 + 0.05 == 1e16`, so the source returns `10000000000000000.00`. -/
def driftInput : Str := s2l "10000000000000000 + 0.05"

/-- A pattern modelling `re.search("(0)", text)`: capture group 1 is `"0"`
whenever the character `0` occurs in the text. -/
def zeroPat : Pattern := fun t => if t.contains '0' then some ['0'] else none

/-- The extraction spec of the C4 failing input:
`{'pattern': '(0)', 'default': 5}`. -/
def zeroSpec : ExtractionSpec := ⟨none, some zeroPat, some 5⟩

/-- A pattern whose capture group 1 is always `"7"`. -/
def hpatSeven : Pattern := fun _ => some (s2l "7")

/-- A pattern whose capture group 1 is always `"9"`. -/
def ppatNine : Pattern := fun _ => some (s2l "9")

/-- A pattern that matches only in the text `S` (the stripped-HTML text of
the C7 witness), capturing `"3"` there: it finds nothing in the plain-text
body, so only the third fallback source can supply a value. -/
def ppatSel : Pattern := fun t => if t = s2l "S" then some (s2l "3") else none

/-- A pattern whose capture group 1 is the single space `" "`: `re.search`
matches, so the capture succeeds, but the captured text strips to the
empty string. -/
def wsPat : Pattern := fun _ => some [' ']

/-- A plain pattern capturing `"5"`. -/
def digPat : Pattern := fun _ => some (s2l "5")

/-- The message of the C5 counterexample, matched by two rules. -/
def dupEmail : GEmail := ⟨s2l "m1", 5, s2l "a@x", s2l "hello", s2l "b", s2l "h"⟩

/-! ## Helper lemmas -/

/-- Date order used by the final sort of `find_matching_emails` (newest
first). -/
def dateGe (a b : MatchedEmail) : Prop := b.email.date ≤ a.email.date

theorem insertDateDesc_perm (x : MatchedEmail) (l : List MatchedEmail) :
    (insertDateDesc x l).Perm (x :: l) := by
  induction l with
  | nil => simp [insertDateDesc]
  | cons y ys ih =>
    unfold insertDateDesc
    by_cases h : y.email.date ≤ x.email.date
    · simp [h]
    · simp only [if_neg h]
      exact (ih.cons y).trans (List.Perm.swap x y ys)

theorem sortByDateDesc_perm (l : List MatchedEmail) :
    (sortByDateDesc l).Perm l := by
  induction l with
  | nil => simp [sortByDateDesc]
  | cons x xs ih =>
    exact ((insertDateDesc_perm x (sortByDateDesc xs)).trans (ih.cons x))

theorem pairwise_insertDateDesc (x : MatchedEmail) (l : List MatchedEmail)
    (h : List.Pairwise dateGe l) : List.Pairwise dateGe (insertDateDesc x l) := by
  induction l with
  | nil => simp [insertDateDesc, List.pairwise_singleton]
  | cons y ys ih =>
    rw [List.pairwise_cons] at h
    obtain ⟨hy, hys⟩ := h
    unfold insertDateDesc
    by_cases hc : y.email.date ≤ x.email.date
    · rw [if_pos hc, List.pairwise_cons]
      refine ⟨?_, List.pairwise_cons.mpr ⟨hy, hys⟩⟩
      intro b hb
      rcases List.mem_cons.mp hb with hb | hb
      · subst hb
        exact hc
      · exact le_trans (hy b hb) hc
    · rw [if_neg hc, List.pairwise_cons]
      refine ⟨?_, ih hys⟩
      intro b hb
      have hb' : b ∈ x :: ys := (insertDateDesc_perm x ys).mem_iff.mp hb
      rcases List.mem_cons.mp hb' with hb2 | hb2
      · subst hb2
        exact le_of_lt (lt_of_not_le hc)
      · exact hy b hb2

theorem pairwise_sortByDateDesc (l : List MatchedEmail) :
    List.Pairwise dateGe (sortByDateDesc l) := by
  induction l with
  | nil => simp [sortByDateDesc]
  | cons x xs ih => exact pairwise_insertDateDesc x (sortByDateDesc xs) ih

/-- Quantizing a nonnegative whole number of cents is the identity: the
claims' concrete monetary values are all of this form. -/
theorem round2_of_cents (n : ℕ) : round2 ((n : ℚ) / 100) = (n : ℚ) / 100 := by
  have h0 : ¬ ((n : ℚ) / 100 < 0) := by
    rw [not_lt]
    positivity
  have hx : (n : ℚ) / 100 * 100 + 1 / 2 = (n : ℚ) + 1 / 2 := by ring
  have hf : ⌊(n : ℚ) / 100 * 100 + 1 / 2⌋ = (n : ℤ) := by
    rw [hx, Int.floor_eq_iff]
    constructor
    · push_cast
      linarith
    · push_cast
      linarith
  rw [round2, if_neg h0, hf]
  norm_num

theorem count_dot_commaToPeriod (s : Str) :
    (commaToPeriod s).count '.' = s.count ',' + s.count '.' := by
  induction s with
  | nil => simp [commaToPeriod]
  | cons c cs ih =>
    by_cases h1 : c = ','
    · subst h1
      simp [commaToPeriod, List.count_cons, ih] at ih ⊢
      omega
    · by_cases h2 : c = '.'
      · subst h2
        simp [commaToPeriod, List.count_cons, ih] at ih ⊢
        omega
      · simp [commaToPeriod, List.count_cons, h1, h2] at ih ⊢
        omega

/-! ## Claim theorems -/

/-- C10: if the formula string is exactly a key of the variables map,
`evaluate` returns that variable's value quantized to 2 fractional digits
directly — for every arithmetic evaluator `ev`, so the substitution,
percent-rewriting and whitelist machinery is bypassed and the expression
is never evaluated arithmetically. -/
theorem C10_variable_name_shortcut (ev : Str → Option ℚ) (f : Str)
    (vars : List (Str × ℚ)) (v : ℚ) (h : vars.lookup f = some v) :
    evaluateWith ev (.fstr f) vars = some (round2 v) := by
  simp [evaluateWith, h]

/-- C10 witness: a variable literally named `a+b` is looked up, not
computed from the variables `a` and `b` (7, not 1 + 2 = 3). -/
theorem C10_witness :
    evaluate (.fstr (s2l "a+b"))
      [(s2l "a+b", (7 : ℚ)), (s2l "a", (1 : ℚ)), (s2l "b", (2 : ℚ))] = some (round2 7) :=
  C10_variable_name_shortcut evalArith (s2l "a+b")
    [(s2l "a+b", (7 : ℚ)), (s2l "a", (1 : ℚ)), (s2l "b", (2 : ℚ))] 7 (by decide)

/-- C1: when the formula string is not an exact variable key (the claim's
pipeline: substitution then percent rewriting then the whitelist), and the
resulting expression contains any character outside digits, whitespace and
`+ - * / ( ) . ,`, then `evaluate` returns `none` — for every arithmetic
evaluator `ev`, so the expression is never arithmetically evaluated. -/
theorem C1_whitelist_rejects (ev : Str → Option ℚ) (f : Str)
    (vars : List (Str × ℚ)) (hlook : vars.lookup f = none)
    (hbad : ∃ c ∈ percentRewrite (substituteVars vars f), allowedChar c = false) :
    evaluateWith ev (.fstr f) vars = none := by
  obtain ⟨c, hc, hbadc⟩ := hbad
  have hall : (percentRewrite (substituteVars vars f)).all allowedChar = false := by
    rw [List.all_eq_false]
    exact ⟨c, hc, by simp [hbadc]⟩
  have hwl : whitelistOk (percentRewrite (substituteVars vars f)) = false := by
    unfold whitelistOk
    rw [hall, Bool.and_false]
  simp [evaluateWith, hlook, hwl]

/-- C1 witness: `evaluate("__import__('os')", {})` returns `none` — the
underscore fails the character whitelist — for the concrete arithmetic
evaluator as well. -/
theorem C1_witness : evaluate (.fstr injStr) [] = none :=
  C1_whitelist_rejects evalArith injStr [] (by decide)
    ⟨'_', by decide, by decide⟩

section RatComputable

attribute [local semireducible] Rat.add Rat.mul Rat.inv Rat.sub

/-- C2: the exact-decimal evaluation the claim mandates yields
`10000000000000000.05` on `driftInput` with no variables; the source's
`eval`-based arithmetic instead loses the `0.05` to double rounding and
returns `10000000000000000.00` (code_bug: the code uses binary floating
point where the spec requires an exact decimal type). -/
theorem C2_exact_evaluation_at_drift_input :
    evaluate (.fstr driftInput) [] = some ((1000000000000000005 : ℚ) / 100) := by
  decide

/-- C9: any input with two or more decimal-separator characters in total
(commas and periods combined) is rejected by `normalize_decimal`: every
comma is rewritten to a period, the stripping step keeps periods, and the
resulting multi-period string does not parse as a decimal. -/
theorem C9_multi_separator_rejected (s : Str)
    (h : 2 ≤ s.count ',' + s.count '.') :
    normalize_decimal s = none := by
  have hne : s.isEmpty = false := by
    cases s with
    | nil => simp at h
    | cons c cs => rfl
  have hcnt : 2 ≤ ((commaToPeriod s).filter fun c => c.isDigit || c = '.').count '.' := by
    rw [List.count_filter (by simp)]
    rw [count_dot_commaToPeriod]
    exact h
  have hdec : (decide
      ((((commaToPeriod s).filter fun c => c.isDigit || c = '.').count '.') ≤ 1)) = false := by
    rw [decide_eq_false_iff_not]
    omega
  unfold normalize_decimal pyDecimalOfString
  rw [hne]
  simp only [Bool.false_eq_true, if_false, hdec, Bool.and_false]

/-- C9 witness: the US-formatted `1,234.56` (thousands separator plus
decimal point) has two separators and normalizes to `none`. -/
theorem C9_witness :
    2 ≤ (s2l "1,234.56").count ',' + (s2l "1,234.56").count '.' ∧
    normalize_decimal (s2l "1,234.56") = none :=
  ⟨by decide, C9_multi_separator_rejected (s2l "1,234.56") (by decide)⟩

theorem isEmpty_false_of_ne_nil {l : Str} (h : l ≠ []) : l.isEmpty = false := by
  cases l with
  | nil => exact absurd rfl h
  | cons a as => rfl

/-- C4 (code_bug): on a body consisting of `0`, the pattern captures `0`,
which normalizes successfully to the decimal 0 — yet the stored value is
the default 5.00, because `if not decimal_value` is also true for a zero
`Decimal`.  The claim (and the source's own comment, 'Use default if
specified and no value found or conversion failed') says the successfully
normalized 0.00 should be stored. -/
theorem C4_zero_capture_overridden_by_default :
    normalize_decimal (s2l "0") = some 0 ∧
    extract_data id (s2l "0") [] [(s2l "amount", zeroSpec)]
      = [(s2l "amount", 5)] := by
  constructor
  · decide
  · decide

/-- C7 (amended): the fallback chain consults (1) the HTML pattern on the
raw HTML body, (2) the plain pattern on the plain-text body, (3) the plain
pattern on the tag-stripped HTML, in that order, and stops at the first
capture that is nonempty after whitespace-trimming: such a capture at
source 1 is the result whatever the plain pattern, the plain body and the
HTML-stripping function; such a capture at source 2 is the result whatever
the HTML-stripping function; and when source 1 is untruthy and source 2 is
absent-or-untruthy, such a capture from the plain pattern on the stripped
HTML text is the result — the third source is consulted and used. -/
theorem C7_fallback_order (sh : Str → Str) (spec : ExtractionSpec) (bt bh : Str) :
    (∀ hp v, spec.htmlPattern = some hp → bh.isEmpty = false →
        extract_value hp bh = some v → v ≠ [] →
        captureValue sh spec bt bh = some v) ∧
    (∀ p v, pyTruthy (htmlStep spec bh) = false → spec.pattern = some p →
        bt.isEmpty = false → extract_value p bt = some v → v ≠ [] →
        captureValue sh spec bt bh = some v) ∧
    (∀ p v, pyTruthy (htmlStep spec bh) = false → spec.pattern = some p →
        (bt.isEmpty = true ∨ pyTruthy (extract_value p bt) = false) →
        bh.isEmpty = false → (sh bh).isEmpty = false →
        extract_value p (sh bh) = some v → v ≠ [] →
        captureValue sh spec bt bh = some v) := by
  refine ⟨?_, ?_, ?_⟩
  · intro hp v hhp hbh hev hv
    have hv0 : htmlStep spec bh = some v := by
      rw [htmlStep, hhp, hbh]
      simpa using hev
    have htv : pyTruthy (some v) = true := by
      simp [pyTruthy, isEmpty_false_of_ne_nil hv]
    cases hP : spec.pattern with
    | none => simp [captureValue, hv0, hP]
    | some p => simp [captureValue, hv0, hP, htv]
  · intro p v hfalse hP hbt hev hv
    have htv : pyTruthy (some v) = true := by
      simp [pyTruthy, isEmpty_false_of_ne_nil hv]
    simp [captureValue, hP, hfalse, hbt, hev, htv]
  · intro p v hfalse hP hbt2 hbh hsh hev hv
    have htv : pyTruthy (some v) = true := by
      simp [pyTruthy, isEmpty_false_of_ne_nil hv]
    rcases hbt2 with hbt | hbt
    · simp [captureValue, hP, hfalse, hbt, hbh, hsh, hev, htv]
    · cases hbtE : bt.isEmpty with
      | true => simp [captureValue, hP, hfalse, hbtE, hbh, hsh, hev, htv]
      | false => simp [captureValue, hP, hfalse, hbt, hbtE, hbh, hsh, hev, htv]

/-- C7 witness: with both patterns present, the HTML capture `7` wins over
the plain capture `9`; with no HTML pattern, the plain capture `9` is
used; and with no HTML pattern and a plain pattern that finds nothing in
the plain-text body `T`, the capture `3` from the stripped-HTML text `S`
(the third source) is used. -/
theorem C7_witness :
    captureValue id ⟨some hpatSeven, some ppatNine, none⟩ (s2l "T") (s2l "H")
      = some (s2l "7") ∧
    captureValue id ⟨none, some ppatNine, none⟩ (s2l "T") (s2l "H")
      = some (s2l "9") ∧
    captureValue (fun _ => s2l "S") ⟨none, some ppatSel, none⟩ (s2l "T") (s2l "H")
      = some (s2l "3") :=
  ⟨(C7_fallback_order id ⟨some hpatSeven, some ppatNine, none⟩ (s2l "T") (s2l "H")).1
      hpatSeven (s2l "7") rfl (by decide) (by decide) (by decide),
   (C7_fallback_order id ⟨none, some ppatNine, none⟩ (s2l "T") (s2l "H")).2.1
      ppatNine (s2l "9") (by decide) rfl (by decide) (by decide) (by decide),
   (C7_fallback_order (fun _ => s2l "S") ⟨none, some ppatSel, none⟩
        (s2l "T") (s2l "H")).2.2
      ppatSel (s2l "3") (by decide) rfl (Or.inr (by decide)) (by decide) (by decide)
      (by decide) (by decide)⟩

/-- C7 counterexample: the HTML pattern captures the nonempty group `" "`
(a successful capture), yet the chain does not stop there: the stripped
value is empty, so the plain-text source is consulted and its value `5`
is returned — refuting the claim that once a capture succeeds the later
sources are not consulted. -/
theorem C7_counterexample :
    wsPat (s2l "H") = some [' '] ∧
    captureValue id ⟨some wsPat, some digPat, none⟩ (s2l "T") (s2l "H")
      = some (s2l "5") := by
  constructor
  · rfl
  · decide

/-- C3 (amended): the body check passes exactly when every term appears as
a substring of a nonempty plain-text body or of a nonempty HTML body,
each term checked independently against both fields; in particular a rule
with terms `A`, `B` matches a message with `A` only in the HTML body and
`B` only in the plain-text body. -/
theorem C3_body_check_characterization :
    (∀ (bt bh : Str) (ts : List Str),
        bodyTermsOk bt bh ts = true ↔
          ∀ t ∈ ts, (bt ≠ [] ∧ t <:+: bt) ∨ (bh ≠ [] ∧ t <:+: bh)) ∧
    email_matches_rule
      ⟨s2l "m0", 0, s2l "s@x", s2l "Subj", s2l "xBx", s2l "yAy"⟩
      ⟨none, none, some [s2l "A", s2l "B"]⟩ = true := by
  constructor
  · intro bt bh ts
    rw [bodyTermsOk, List.all_eq_true]
    constructor
    · intro h t ht
      have := h t ht
      rcases Bool.or_eq_true _ _ |>.mp this with h1 | h1
      · rw [Bool.and_eq_true] at h1
        exact Or.inl ⟨by simpa using h1.1, by simpa using h1.2⟩
      · rw [Bool.and_eq_true] at h1
        exact Or.inr ⟨by simpa using h1.1, by simpa using h1.2⟩
    · intro h t ht
      rcases h t ht with ⟨h1, h2⟩ | ⟨h1, h2⟩
      · exact Bool.or_eq_true _ _ |>.mpr (Or.inl (by simp [isEmpty_false_of_ne_nil h1, h2]))
      · exact Bool.or_eq_true _ _ |>.mpr (Or.inr (by simp [isEmpty_false_of_ne_nil h1, h2]))
  · decide

/-- C3 counterexample: the empty term is vacuously a substring of the
(empty) plain-text body, so the claim as stated requires the check to
pass, but the truthiness guard `body_text and term in body_text` fails
for an empty field and the check rejects. -/
theorem C3_counterexample :
    ([] : Str) <:+: ([] : Str) ∧
    bodyTermsOk [] [] [([] : Str)] = false ∧
    email_matches_rule
      ⟨s2l "m0", 0, s2l "s@x", s2l "Subj", [], []⟩
      ⟨none, none, some [([] : Str)]⟩ = false := by
  refine ⟨List.nil_infix, by decide, by decide⟩

/-- C3 witness: the split-field instance of the amended equivalence —
every term of `[A, B]` appears in one of the nonempty bodies (`B` in the
plain text `xBx`, `A` in the HTML `yAy`), so the check passes. -/
theorem C3_witness : bodyTermsOk (s2l "xBx") (s2l "yAy") [s2l "A", s2l "B"] = true :=
  (C3_body_check_characterization.1 (s2l "xBx") (s2l "yAy") [s2l "A", s2l "B"]).mpr
    (by decide)

/-- C6 (amended): throughout `_email_matches_rule` containment is exact-case
substring containment — a match implies every set criterion occurs verbatim
in the corresponding field — and in particular a rule with sender `Apple`
does not match a message whose sender is `apple@example.com`.  (The
`process_emails` body check in `main.py`, by contrast, lowercases both
sides; see the counterexample.) -/
theorem C6_matcher_case_sensitive :
    (∀ (e : GEmail) (r : GRule), email_matches_rule e r = true →
        (∀ s, r.sender = some s → s ≠ [] → s <:+: e.sender) ∧
        (∀ s, r.subject = some s → s ≠ [] → s <:+: e.subject) ∧
        (∀ ts t, r.bodyContains = some ts → t ∈ ts →
          t <:+: e.bodyText ∨ t <:+: e.bodyHtml)) ∧
    email_matches_rule
      ⟨s2l "m1", 0, s2l "apple@example.com", [], [], []⟩
      ⟨some (s2l "Apple"), none, none⟩ = false := by
  constructor
  · intro e r h
    rw [email_matches_rule, Bool.and_eq_true, Bool.and_eq_true] at h
    obtain ⟨⟨hs, hsub⟩, hb⟩ := h
    refine ⟨?_, ?_, ?_⟩
    · intro s hcrit hne
      rw [hcrit] at hs
      simp [fieldOk, isEmpty_false_of_ne_nil hne] at hs
      exact hs.2
    · intro s hcrit hne
      rw [hcrit] at hsub
      simp [fieldOk, isEmpty_false_of_ne_nil hne] at hsub
      exact hsub.2
    · intro ts t hcrit ht
      rw [hcrit] at hb
      have hterms : bodyTermsOk e.bodyText e.bodyHtml ts = true := by
        cases ts with
        | nil => cases ht
        | cons a as => simpa [bodyOk] using hb
      rw [bodyTermsOk, List.all_eq_true] at hterms
      have := hterms t ht
      rcases Bool.or_eq_true _ _ |>.mp this with h1 | h1
      · rw [Bool.and_eq_true] at h1
        exact Or.inl (by simpa using h1.2)
      · rw [Bool.and_eq_true] at h1
        exact Or.inr (by simpa using h1.2)
  · decide

/-- C6 witness: a matching pair really yields exact-case containment — the
rule sender `Apple` occurs verbatim in the message sender. -/
theorem C6_witness : s2l "Apple" <:+: s2l "From Apple Inc" :=
  ((C6_matcher_case_sensitive.1
      ⟨s2l "m2", 0, s2l "From Apple Inc", [], [], []⟩
      ⟨some (s2l "Apple"), none, none⟩ (by decide)).1 (s2l "Apple") rfl (by decide))

/-- C6 counterexample: the `process_emails` body check of `main.py` — one
of the body checks the claim covers — matches the term `Apple` against a
body containing only `apple`, although `Apple` is not an exact-case
substring of it: that check lowercases both sides and is not
case-sensitive. -/
theorem C6_counterexample :
    process_emails_body_match [s2l "Apple"] (s2l "my apple pie") = true ∧
    ¬ s2l "Apple" <:+: s2l "my apple pie" := by
  constructor
  · decide
  · decide

/-- C5 (amended): the list returned by `find_matching_emails` is sorted by
message date, descending, and is a permutation of the per-rule
concatenation of matches — so it is NOT deduplicated: a message appears
once for every rule it satisfies. -/
theorem C5_sorted_not_deduplicated (rules : List GRule)
    (search : GRule → List GEmail) (processed ignored : List Str) :
    List.Pairwise dateGe (find_matching_emails rules search processed ignored) ∧
    (find_matching_emails rules search processed ignored).Perm
      ((rules.map fun r =>
        ((search r).filter fun e =>
          !processed.contains e.id && !ignored.contains e.id && inlineMatches r e).map
          fun e => MatchedEmail.mk e r).flatten) :=
  ⟨pairwise_sortByDateDesc _, sortByDateDesc_perm _⟩

/-- C5 counterexample: a single message satisfying two rules appears twice
in the returned list (once per rule), so the result is not deduplicated:
the returned ids are `[m1, m1]`. -/
theorem C5_counterexample :
    ((find_matching_emails
        [⟨some (s2l "a@x"), none, none⟩, ⟨some (s2l "x"), none, none⟩]
        (fun _ => [dupEmail]) [] []).map fun p => p.email.id)
      = [s2l "m1", s2l "m1"] ∧
    ¬ ((find_matching_emails
        [⟨some (s2l "a@x"), none, none⟩, ⟨some (s2l "x"), none, none⟩]
        (fun _ => [dupEmail]) [] []).map fun p => p.email.id).Nodup := by
  constructor
  · decide
  · decide

/-- C8: the reported totals are the sums of the resolved debit and credit
decimals and the balanced flag holds exactly when total debit equals total
credit, by exact decimal equality; the concrete entries
`[{1510, debit 100}, {3000, credit 100}]` report balanced with totals
`(100, 100)`, and changing the credit to `99.99` reports unbalanced. -/
theorem C8_totals_and_balance :
    (∀ (entries : List EntryTemplate) (vars : List (Str × ℚ)),
        (preview_voucher entries vars).totalDebit
            = ((calculate_voucher_entries entries vars).map ResolvedEntry.debit).sum ∧
        (preview_voucher entries vars).totalCredit
            = ((calculate_voucher_entries entries vars).map ResolvedEntry.credit).sum ∧
        ((preview_voucher entries vars).balanced = true ↔
          (preview_voucher entries vars).totalDebit
            = (preview_voucher entries vars).totalCredit)) ∧
    (preview_voucher
        [⟨s2l "1510", some (.num 100), some (.num 0)⟩,
         ⟨s2l "3000", some (.num 0), some (.num 100)⟩] []).balanced = true ∧
    (preview_voucher
        [⟨s2l "1510", some (.num 100), some (.num 0)⟩,
         ⟨s2l "3000", some (.num 0), some (.num 100)⟩] []).totalDebit = 100 ∧
    (preview_voucher
        [⟨s2l "1510", some (.num 100), some (.num 0)⟩,
         ⟨s2l "3000", some (.num 0), some (.num 100)⟩] []).totalCredit = 100 ∧
    (preview_voucher
        [⟨s2l "1510", some (.num 100), some (.num 0)⟩,
         ⟨s2l "3000", some (.num 0), some (.num (9999 / 100))⟩] []).balanced = false := by
  refine ⟨?_, by decide, by decide, by decide, by decide⟩
  intro entries vars
  refine ⟨rfl, rfl, ?_⟩
  simp [preview_voucher, decide_eq_true_eq]

end RatComputable
